import Mathlib

/-!
Verification of the S3 source connector (`src/dataflow/src/source/s3.rs`).

The development shallowly embeds the pure computational content of the file:
the glob-prefix extractor `find_prefix`, the poll-driven source reader
(`get_next_message`, `buffer_message`, `can_close_timestamp`), and the bucket
scanner task (`read_bucket_task`, `download_object`), and proves the spec's
testable properties about them.  Machine integers (`i64`) are modelled as
`Int`; byte buffers (`Vec<u8>`) as `List Nat`; `Result<T, anyhow::Error>` as
an explicit sum with a `String` error payload.
-/

set_option maxHeartbeats 1000000

namespace S3Spec

/-! ## Prefix extraction (`find_prefix`, s3.rs lines 383-413)

The Rust function runs a `take_while` with an `escaped` flag followed by a
`filter` with an `escaped_filter` flag over the pattern's characters.  Both
stateful closures are embedded as recursive functions whose first argument is
the closure's captured flag. -/

/-- The `take_while` pass of `find_prefix`: stop at an unescaped `*`, `[` or
`{`; a backslash escapes the next character (both are kept by this pass). -/
def takeWhileEsc : Bool → List Char → List Char
  | _, [] => []
  | false, c :: rest =>
    if c = '*' then []
    else if c = '[' then []
    else if c = '{' then []
    else if c = '\\' then '\\' :: takeWhileEsc true rest
    else c :: takeWhileEsc false rest
  | true, c :: rest => c :: takeWhileEsc false rest

/-- The `filter` pass of `find_prefix`: drop each escaping backslash, keep the
character it escapes. -/
def filterEsc : Bool → List Char → List Char
  | _, [] => []
  | true, c :: rest => c :: filterEsc false rest
  | false, c :: rest =>
    if c = '\\' then filterEsc true rest
    else c :: filterEsc false rest

/-- `find_prefix` (s3.rs 383-413): the unambiguous literal prefix of a glob. -/
def find_prefix (glob : List Char) : List Char :=
  filterEsc false (takeWhileEsc false glob)

/-- `find_prefix` on Rust `&str` input/`String` output. -/
def find_prefix_str (glob : String) : String :=
  String.mk ( find_prefix glob.toList)

/-- Single-pass recursion computing the same value as the two-pass
`find_prefix`; used as a stepping stone in proofs. -/
def simpleFp : List Char → List Char
  | [] => []
  | ['\\'] => []
  | '\\' :: d :: rest' => d :: simpleFp rest'
  | c :: rest =>
    if c = '*' ∨ c = '[' ∨ c = '{' then [] else c :: simpleFp rest

/-! ## A glob-matching model

Modelled from the spec: the actual matcher is the external `globset` crate
(`GlobMatcher::is_match`), which is not part of this repository; the spec
describes it only as a compiled pattern answering "does this key match".  We
model the core glob language the spec's prefix-correctness property quantifies
over: `*` matches any character sequence, `[...]` matches one character from
the class, `{a,b}` matches one of the literal alternatives, and a backslash
escapes the following character. -/

/-- A token of the modelled glob language. -/
inductive Tok
  | lit (c : Char)
  | star
  | cls (cs : List Char)
  | group (alts : List (List Char))
deriving DecidableEq

/-- Tokenizer mode: at top level, inside a `[...]` class, or inside a
`{...}` group. -/
inductive TkMode
  | norm
  | inCls (acc : List Char)
  | inGrp (cur : List Char) (alts : List (List Char))

/-- Tokenize a glob pattern; `none` on malformed patterns (unclosed class or
group, trailing backslash). -/
def tokAux : TkMode → List Char → Option (List Tok)
  | .norm, [] => some []
  | .inCls _, [] => none
  | .inGrp _ _, [] => none
  | .norm, ['\\'] => none
  | .norm, '\\' :: d :: rest' => (tokAux .norm rest').map (fun ts => Tok.lit d :: ts)
  | .norm, c :: rest =>
    if c = '*' then (tokAux .norm rest).map (fun ts => Tok.star :: ts)
    else if c = '[' then tokAux (.inCls []) rest
    else if c = '{' then tokAux (.inGrp [] []) rest
    else (tokAux .norm rest).map (fun ts => Tok.lit c :: ts)
  | .inCls acc, c :: rest =>
    if c = ']' then (tokAux .norm rest).map (fun ts => Tok.cls acc :: ts)
    else tokAux (.inCls (acc ++ [c])) rest
  | .inGrp cur alts, c :: rest =>
    if c = '}' then (tokAux .norm rest).map (fun ts => Tok.group (alts ++ [cur]) :: ts)
    else if c = ',' then tokAux (.inGrp [] (alts ++ [cur])) rest
    else tokAux (.inGrp (cur ++ [c]) alts) rest

/-- Tokenize a pattern starting in normal mode. -/
def tokenize (glob : List Char) : Option (List Tok) :=
  tokAux .norm glob

/-- Weight of a token, used as part of the termination measure of the
matcher (a group shrinks alternative by alternative). -/
def tokWeight : Tok → Nat
  | .group alts => alts.length + 2
  | _ => 1

/-- Does a token list match a character string? -/
def matchToks : List Tok → List Char → Bool
  | [], [] => true
  | [], _ :: _ => false
  | Tok.lit _ :: _, [] => false
  | Tok.lit c :: ts, d :: s => c = d && matchToks ts s
  | Tok.star :: ts, [] => matchToks ts []
  | Tok.star :: ts, d :: s => matchToks ts (d :: s) || matchToks (Tok.star :: ts) s
  | Tok.cls _ :: _, [] => false
  | Tok.cls cs :: ts, d :: s => cs.contains d && matchToks ts s
  | Tok.group [] :: _, _ => false
  | Tok.group (a :: rest) :: ts, s =>
    (a.isPrefixOf s && matchToks ts (s.drop a.length)) || matchToks (Tok.group rest :: ts) s
termination_by ts s => 2 * s.length + (ts.map tokWeight).sum
decreasing_by
  all_goals simp [tokWeight]
  all_goals omega

/-- The leading literal characters of a token list. -/
def leadLits : List Tok → List Char
  | Tok.lit c :: ts => c :: leadLits ts
  | _ => []

/-! ## Source reader data model (s3.rs lines 36-132, 264-378)

`Out = Vec<u8>` is modelled as `List Nat`; `anyhow::Error` as a `String`;
`Result<T, anyhow::Error>` as `SResult T`. -/

/-- Byte buffers (`Vec<u8>`). -/
abbrev Rec := List Nat

/-- `Result<α, anyhow::Error>`. -/
inductive SResult (α : Type)
  | ok (val : α)
  | err (e : String)
deriving DecidableEq

/-- An item travelling on the scanner-to-reader channel:
`Result<Out, anyhow::Error>`. -/
abbrev ChanItem := SResult Rec

/-- The engine-wide offset type (`dataflow_types::MzOffset`, an `i64`). -/
structure MzOffset where
  offset : Int
deriving DecidableEq

/-- `BucketOffset` (s3.rs 58-59): per-source record counter, an `i64`. -/
structure BucketOffset where
  val : Int
deriving DecidableEq

/-- The `AddAssign<i64>` impl for `BucketOffset` (s3.rs 61-65). -/
def bucketOffsetAdd (b : BucketOffset) (other : Int) : BucketOffset :=
  ⟨b.val + other⟩

/-- The `From<BucketOffset> for MzOffset` impl (s3.rs 67-71). -/
def mzOffsetOfBucket (b : BucketOffset) : MzOffset :=
  ⟨b.val⟩

/-- Partition identifiers; S3 sources only ever use `PartitionId::S3`. -/
inductive PartitionId
  | s3
deriving DecidableEq

/-- `SourceMessage<Out>` as built by `get_next_message` (s3.rs 305-311). -/
structure SourceMessage where
  partition : PartitionId
  offset : MzOffset
  upstream_time_millis : Option Int
  key : Option Rec
  payload : Option Rec
deriving DecidableEq

/-- `NextMessage<Out>`: the reader's per-tick answer. -/
inductive NextMessage
  | Ready (msg : SourceMessage)
  | Pending
  | Finished
deriving DecidableEq

/-- The mutable state of `S3SourceInfo` (s3.rs 39-56).  The identifying
fields are kept; the channel receiver is modelled separately as a
`ChannelState` threaded through `get_next_message`. -/
structure S3SourceInfo where
  source_name : String
  bucket : String
  id : Nat
  is_activated_reader : Bool
  buffer : Option SourceMessage
  offset : BucketOffset
deriving DecidableEq

/-- The state of the `std::sync::mpsc` channel as seen by `try_recv`: the
queue of undelivered items, and whether any sender is still alive. -/
structure ChannelState where
  queue : List ChanItem
  senderOpen : Bool
deriving DecidableEq

/-- Outcome of `Receiver::try_recv`. -/
inductive TryRecvResult
  | ok (item : ChanItem)
  | empty
  | disconnected
deriving DecidableEq

/-- `Receiver::try_recv`: pop a queued item if any; otherwise report
`Empty` while a sender lives and `Disconnected` once all senders dropped
(buffered items are still delivered after disconnection). -/
def tryRecv (ch : ChannelState) : TryRecvResult × ChannelState :=
  match ch.queue with
  | item :: rest => (.ok item, { ch with queue := rest })
  | [] => if ch.senderOpen then (.empty, ch) else (.disconnected, ch)

/-- `get_next_message` (s3.rs 294-326): return the re-buffered message if
present; otherwise one non-blocking receive decides the tick's answer. -/
def get_next_message (st : S3SourceInfo) (ch : ChannelState) :
    SResult NextMessage × S3SourceInfo × ChannelState :=
  match st.buffer with
  | some message => (.ok (.Ready message), { st with buffer := none }, ch)
  | none =>
    match tryRecv ch with
    | (.ok (.ok record), ch') =>
      let offset' := bucketOffsetAdd st.offset 1
      (.ok (.Ready { partition := .s3, offset := mzOffsetOfBucket offset',
                     upstream_time_millis := none, key := none,
                     payload := some record }),
       { st with offset := offset' }, ch')
    | (.ok (.err e), ch') => (.err e, st, ch')
    | (.empty, ch') => (.ok .Pending, st, ch')
    | (.disconnected, ch') => (.ok .Finished, st, ch')

/-- `buffer_message` (s3.rs 372-377); `none` models the panic taken when the
slot is already occupied. -/
def buffer_message (st : S3SourceInfo) (message : SourceMessage) :
    Option S3SourceInfo :=
  if st.buffer.isSome then none
  else some { st with buffer := some message }

/-- `can_close_timestamp` (s3.rs 328-346).  The only part of the
`ConsistencyInfo` context the function reads is
`partition_metadata.get(&pid).map(|m| m.offset)`, passed here as
`partition_metadata_offset`; `none` models the panic taken when the `get`
fails and is unwrapped. -/
def can_close_timestamp (st : S3SourceInfo)
    (partition_metadata_offset : Option MzOffset) (offset : MzOffset) :
    Option Bool :=
  if !st.is_activated_reader then some true
  else
    match partition_metadata_offset with
    | none => none
    | some last_offset => some (decide (last_offset.offset ≥ offset.offset))

/-- The reader-side state built by `SourceConstructor::new` (s3.rs 122-130). -/
def mkS3SourceInfo (source_name : String) (bucket : String) (id : Nat)
    (active : Bool) : S3SourceInfo :=
  { source_name, bucket, id, is_activated_reader := active,
    buffer := none, offset := ⟨0⟩ }

/-- The channel handed to a non-elected worker (s3.rs 111-114): a
zero-capacity channel whose sender is dropped at once, so it is empty and
disconnected forever. -/
def nonScannerChannel : ChannelState :=
  { queue := [], senderOpen := false }

/-- Poll `get_next_message` `n` times, collecting the per-tick results. -/
def pollN : Nat → S3SourceInfo → ChannelState →
    List (SResult NextMessage) × S3SourceInfo × ChannelState
  | 0, st, ch => ([], st, ch)
  | n + 1, st, ch =>
    let r := get_next_message st ch
    let rest := pollN n r.2.1 r.2.2
    (r.1 :: rest.1, rest.2)

/-- The offsets carried by the `Ready` messages of a poll trace. -/
def readyOffsets (rs : List (SResult NextMessage)) : List Int :=
  rs.filterMap fun r =>
    match r with
    | .ok (.Ready m) => some m.offset.offset
    | _ => none

/-- `[o + 1, o + 2, ..., o + k]`: the consecutive integers after `o`. -/
def consec (o : Int) : Nat → List Int
  | 0 => []
  | k + 1 => (o + 1) :: consec (o + 1) k

/-! ## Bucket scanner (s3.rs lines 134-262)

The network is modelled as an environment: the sequence of answers the
paginated `list_objects_v2` calls receive, and a map from key to the outcome
of `get_object` plus the body read.  Sends into the channel are modelled as
always succeeding (the receiver is alive), and the wake `activator` as
present, as in the elected-scanner configuration that spawns the task. -/

/-- Splitting a byte buffer on the newline byte (`buf.split(|b| *b == b'\n')`
in `download_object`): `n` separators yield `n + 1` records, so the empty
buffer yields one empty record. -/
def splitNl : List Nat → List (List Nat)
  | [] => [[]]
  | b :: rest =>
    if b = 10 then [] :: splitNl rest
    else
      match splitNl rest with
      | r :: rs => (b :: r) :: rs
      | [] => [[b]]

/-- Outcome of `get_object` for one key, as the environment decides it:
the request fails, the response has no body, the body reads fully, or the
body read fails. -/
inductive ObjResult
  | fetchErr (e : String)
  | noBody
  | bodyOk (bytes : List Nat)
  | readErr (e : String)
deriving DecidableEq

/-- What `download_object` did: the items it sent into the channel and how
many times it signalled the consumer's activator. -/
structure DownloadResult where
  msgs : List ChanItem
  activations : Nat
deriving DecidableEq

/-- `download_object` (s3.rs 208-262). -/
def download_object (objEnv : String → ObjResult) (key : String) :
    DownloadResult :=
  match objEnv key with
  | .fetchErr e =>
    { msgs := [.err ("Unable to GET object: " ++ e)], activations := 0 }
  | .noBody => { msgs := [], activations := 0 }
  | .readErr e =>
    { msgs := [.err ("Unable to read object: " ++ e)], activations := 0 }
  | .bodyOk bytes =>
    { msgs := (splitNl bytes).map .ok,
      activations := if bytes.isEmpty then 0 else 1 }

/-- One answer to a `list_objects_v2` call: `contents` is the optional list
of objects, each with an optional key; `next_continuation_token` is the
pagination cursor (tokens modelled as `Nat`). -/
inductive ListResult
  | ok (contents : Option (List (Option String)))
      (next_continuation_token : Option Nat)
  | err (e : String)
deriving DecidableEq

/-- How the scan task's loop ended. -/
inductive ScanOutcome
  /-- `break` after a page without continuation token. -/
  | completed
  /-- `break` after the retry budget reached zero. -/
  | exhausted
  /-- the supplied list of responses ran out before the loop broke. -/
  | starved
deriving DecidableEq

/-- Observable record of a scan: the continuation cursor used by each listing
call, everything sent into the channel, the activator signals, the backoff
sleeps, and how the loop ended. -/
structure ScanResult where
  calls : List (Option Nat)
  msgs : List ChanItem
  activations : Nat
  sleeps : Nat
  outcome : ScanOutcome
deriving DecidableEq

/-- The keys processed from one listing response's contents (s3.rs 171-175):
`filter_map` over the optional keys, then filter by the full glob
(`unwrap_or(true)` when no glob is configured). -/
def keysOfContents (glob : Option (String → Bool))
    (contents : Option (List (Option String))) : List String :=
  ((contents.getD []).filterMap id).filter fun k =>
    (glob.map fun g => g k).getD true

/-- The loop of `read_bucket_task` (s3.rs 157-205), consuming one supplied
`ListResult` per listing call.  State: the continuation cursor and the
`allowed_errors` budget. -/
def scanLoop (glob : Option (String → Bool)) (objEnv : String → ObjResult) :
    Option Nat → Nat → List ListResult → ScanResult
  | _, _, [] =>
    { calls := [], msgs := [], activations := 0, sleeps := 0,
      outcome := .starved }
  | tok, _allowed, .ok contents next :: rs =>
    let dls := (keysOfContents glob contents).map (download_object objEnv)
    let pageMsgs := (dls.map DownloadResult.msgs).flatten
    let pageActs := (dls.map DownloadResult.activations).sum
    match next with
    | none =>
      { calls := [tok], msgs := pageMsgs, activations := pageActs,
        sleeps := 0, outcome := .completed }
    | some t =>
      let r := scanLoop glob objEnv (some t) 10 rs
      { calls := tok :: r.calls, msgs := pageMsgs ++ r.msgs,
        activations := pageActs + r.activations, sleeps := r.sleeps,
        outcome := r.outcome }
  | tok, allowed, .err _e :: rs =>
    let allowed' := allowed - 1
    if allowed' = 0 then
      { calls := [tok], msgs := [], activations := 0, sleeps := 0,
        outcome := .exhausted }
    else
      let r := scanLoop glob objEnv tok allowed' rs
      { calls := tok :: r.calls, msgs := r.msgs,
        activations := r.activations, sleeps := r.sleeps + 1,
        outcome := r.outcome }

/-- `read_bucket_task` (s3.rs 134-206) after successful client construction:
the loop starts with no continuation cursor and `allowed_errors = 10`. -/
def read_bucket_task (glob : Option (String → Bool))
    (objEnv : String → ObjResult) (responses : List ListResult) : ScanResult :=
  scanLoop glob objEnv none 10 responses

/-- Build the listing responses of a complete multi-page scan: every page but
the last carries a continuation token, the last carries none. -/
def mkResponses : List (List (Option String)) → List ListResult
  | [] => []
  | [p] => [.ok (some p) none]
  | p :: ps => .ok (some p) (some 0) :: mkResponses ps

/-- The success records of a channel-item sequence, in order. -/
def okRecords (msgs : List ChanItem) : List Rec :=
  msgs.filterMap fun m =>
    match m with
    | .ok r => some r
    | .err _ => none

/-- The records `download_object` pushes for one key's outcome. -/
def recordsOf : ObjResult → List Rec
  | .bodyOk bytes => splitNl bytes
  | _ => []

/-- Is a listing response a failure? -/
def isErrResult : ListResult → Bool
  | .err _ => true
  | _ => false

/-! ## Lemmas about the prefix extractor -/

/-- The two-pass `find_prefix` agrees with the single-pass recursion. -/
theorem find_prefix_eq_simpleFp : ∀ (l : List Char), find_prefix l = simpleFp l
  | [] => rfl
  | c :: rest => by
    by_cases h1 : c = '*'
    · subst h1; rfl
    by_cases h2 : c = '['
    · subst h2; rfl
    by_cases h3 : c = '{'
    · subst h3; rfl
    by_cases h4 : c = '\\'
    · subst h4
      cases rest with
      | nil => rfl
      | cons d rest' =>
        exact congrArg (fun w => d :: w) (find_prefix_eq_simpleFp rest')
    · have ih : filterEsc false (takeWhileEsc false rest) = simpleFp rest :=
        find_prefix_eq_simpleFp rest
      simp [ find_prefix, takeWhileEsc, filterEsc, simpleFp, h1, h2, h3, h4, ih]

/-- Tokenizing from inside a character class yields a `cls`-headed list. -/
theorem tokAux_inCls_shape :
    ∀ (l : List Char) (acc : List Char) (ts : List Tok),
      tokAux (.inCls acc) l = some ts → ∃ cs ts', ts = Tok.cls cs :: ts' := by
  intro l
  induction l with
  | nil => intro acc ts h; simp [tokAux] at h
  | cons c rest ih =>
    intro acc ts h
    by_cases hc : c = ']'
    · subst hc
      simp [tokAux, Option.map_eq_some'] at h
      obtain ⟨ts0, _, rfl⟩ := h
      exact ⟨acc, ts0, rfl⟩
    · simp only [tokAux] at h
      rw [if_neg hc] at h
      exact ih _ _ h

/-- Tokenizing from inside a group yields a `group`-headed list. -/
theorem tokAux_inGrp_shape :
    ∀ (l : List Char) (cur : List Char) (alts : List (List Char)) (ts : List Tok),
      tokAux (.inGrp cur alts) l = some ts → ∃ as ts', ts = Tok.group as :: ts' := by
  intro l
  induction l with
  | nil => intro cur alts ts h; simp [tokAux] at h
  | cons c rest ih =>
    intro cur alts ts h
    by_cases hc : c = '}'
    · subst hc
      simp [tokAux, Option.map_eq_some'] at h
      obtain ⟨ts0, _, rfl⟩ := h
      exact ⟨alts ++ [cur], ts0, rfl⟩
    · by_cases hc' : c = ','
      · subst hc'
        simp [tokAux] at h
        exact ih _ _ _ h
      · simp only [tokAux] at h
        rw [if_neg hc, if_neg hc'] at h
        exact ih _ _ _ h

/-- On any pattern the tokenizer accepts, the single-pass prefix is exactly
the leading literal run of the token list. -/
theorem tokAux_norm_leadLits : ∀ (l : List Char) (ts : List Tok),
    tokAux TkMode.norm l = some ts → simpleFp l = leadLits ts
  | [], ts, h => by
    simp [tokAux] at h
    subst h; rfl
  | c :: rest, ts, h => by
    by_cases h1 : c = '*'
    · subst h1
      simp [tokAux, Option.map_eq_some'] at h
      obtain ⟨ts0, _, rfl⟩ := h
      rfl
    by_cases h2 : c = '['
    · subst h2
      simp [tokAux] at h
      obtain ⟨cs, ts', rfl⟩ := tokAux_inCls_shape _ _ _ h
      rfl
    by_cases h3 : c = '{'
    · subst h3
      simp [tokAux] at h
      obtain ⟨as, ts', rfl⟩ := tokAux_inGrp_shape _ _ _ _ h
      rfl
    by_cases h4 : c = '\\'
    · subst h4
      cases rest with
      | nil => simp [tokAux] at h
      | cons d rest' =>
        simp [tokAux, Option.map_eq_some'] at h
        obtain ⟨ts0, h0, rfl⟩ := h
        exact congrArg (fun w => d :: w) (tokAux_norm_leadLits rest' ts0 h0)
    · rw [tokAux.eq_6 c rest (fun hc _ => h4 hc) (fun _ _ hc _ => h4 hc)] at h
      rw [if_neg h1, if_neg h2, if_neg h3] at h
      rw [Option.map_eq_some'] at h
      obtain ⟨ts0, h0, rfl⟩ := h
      have ih := tokAux_norm_leadLits rest ts0 h0
      simp [simpleFp, h1, h2, h3, h4, ih, leadLits]

/-- Soundness of the leading-literal run: a matched string starts with it. -/
theorem matchToks_leadLits :
    ∀ (ts : List Tok) (s : List Char), matchToks ts s = true → leadLits ts <+: s := by
  intro ts
  induction ts with
  | nil => intro s _; exact List.nil_prefix
  | cons t ts ih =>
    intro s h
    cases t with
    | lit c =>
      cases s with
      | nil => simp [matchToks] at h
      | cons d s' =>
        simp only [matchToks, Bool.and_eq_true, decide_eq_true_eq] at h
        obtain ⟨rfl, h'⟩ := h
        exact List.cons_prefix_cons.mpr ⟨rfl, ih s' h'⟩
    | star => exact List.nil_prefix
    | cls cs => exact List.nil_prefix
    | group alts => exact List.nil_prefix

/-! ## Lemmas about the reader -/

/-- Head of the consecutive-integers list. -/
theorem consec_head : ∀ (k : Nat) (o : Int),
    (consec o k).head? = if k = 0 then none else some (o + 1) := by
  intro k o; cases k <;> simp [consec]

/-- `consec` steps by exactly one: no gaps, no repeats. -/
theorem consec_chain_succ : ∀ (k : Nat) (o : Int),
    List.Chain' (fun a b => b = a + 1) (consec o k) := by
  intro k
  induction k with
  | zero => intro o; simp [consec]
  | succ n ih =>
    intro o
    refine List.chain'_cons'.mpr ⟨?_, ih (o + 1)⟩
    intro y hy
    cases n with
    | zero => simp [consec] at hy
    | succ m => simp [consec] at hy; omega

/-- Polling a channel whose queue holds only fresh records tags them with
the consecutive offsets after the reader's current one. -/
theorem poll_ok_trace : ∀ (recs : List Rec) (st : S3SourceInfo) (b : Bool),
    st.buffer = none →
    readyOffsets (pollN recs.length st ⟨recs.map SResult.ok, b⟩).1 =
      consec st.offset.val recs.length := by
  intro recs
  induction recs with
  | nil => intro st b h; simp [pollN, readyOffsets, consec]
  | cons r recs ih =>
    intro st b h
    have ih' := ih { st with offset := bucketOffsetAdd st.offset 1 } b h
    simp only [List.length_cons, List.map_cons, pollN, get_next_message, h,
      tryRecv] at ih' ⊢
    simp only [readyOffsets, List.filterMap_cons, bucketOffsetAdd] at ih' ⊢
    simp [ih', consec, mzOffsetOfBucket]

/-! ## Claim theorems -/

/-- C1: `find_prefix` is a pure total function returning the longest leading
literal substring of a glob pattern: it stops at the first unescaped `*`, `[`
or `{`, keeps a backslash-escaped character while dropping the escaping
backslash, satisfies all the oracle cases of the `glob_prefix` test, and every
string matched by the (modelled) full pattern starts with the extracted
prefix. -/
theorem c1_find_prefix_correct :
    (∀ (p : List Char) (ts : List Tok) (s : List Char),
        tokenize p = some ts → matchToks ts s = true → find_prefix p <+: s)
    ∧ (∀ (c : Char) (rest : List Char),
        find_prefix ('\\' :: c :: rest) = c :: find_prefix rest)
    ∧ (∀ (c : Char) (rest : List Char),
        c ≠ '*' → c ≠ '[' → c ≠ '{' → c ≠ '\\' →
        find_prefix (c :: rest) = c :: find_prefix rest)
    ∧ (∀ (rest : List Char),
        find_prefix ('*' :: rest) = [] ∧ find_prefix ('[' :: rest) = []
          ∧ find_prefix ('{' :: rest) = [])
    ∧ find_prefix_str "foo/**" = "foo/"
    ∧ find_prefix_str "" = ""
    ∧ find_prefix_str "**/*.json" = ""
    ∧ find_prefix_str "foo/\\*/bar/*.json" = "foo/*/bar/"
    ∧ find_prefix_str "foo/[*]/**" = "foo/"
    ∧ find_prefix_str "foo/\x7ba,b\x7d" = "foo/"
    ∧ find_prefix_str "class/\\[*.json" = "class/["
    ∧ find_prefix_str "class/\\[ab]/**" = "class/[ab]/"
    ∧ find_prefix_str "alt/\\\x7ba,b\x7d/**" = "alt/\x7ba,b\x7d/" := by
  refine ⟨?_, ?_, ?_, ?_, ?_, ?_, ?_, ?_, ?_, ?_, ?_, ?_, ?_⟩
  · intro p ts s htok hmatch
    rw [ find_prefix_eq_simpleFp p, tokAux_norm_leadLits p ts htok]
    exact matchToks_leadLits ts s hmatch
  · intro c rest; rfl
  · intro c rest h1 h2 h3 h4
    simp [ find_prefix, takeWhileEsc, filterEsc, h1, h2, h3, h4]
  · intro rest; exact ⟨rfl, rfl, rfl⟩
  all_goals decide

/-- Witness for C1: the prefix property and the literal-character equation at
concrete inputs. -/
theorem c1_witness :
    ( find_prefix ['a', '*'] <+: ['a', 'b', 'c'])
    ∧ find_prefix ['x'] = 'x' :: find_prefix [] :=
  ⟨c1_find_prefix_correct.1 ['a', '*'] [Tok.lit 'a', Tok.star] ['a', 'b', 'c']
      (by decide) (by simp [matchToks]),
   c1_find_prefix_correct.2.2.1 'x' [] (by decide) (by decide) (by decide)
      (by decide)⟩

/-- C2: the offset counter starts at 0 at construction, is bumped by exactly
one per fresh record handed out, never decreases, and for a queue of fresh
records the offsets on the returned messages are the consecutive integers
after the current offset — from a fresh source, `1, 2, ..., k`; the
conversion into `MzOffset` is lossless. -/
theorem c2_offset_monotone :
    (∀ (recs : List Rec) (st : S3SourceInfo) (b : Bool), st.buffer = none →
        readyOffsets (pollN recs.length st ⟨recs.map SResult.ok, b⟩).1 =
          consec st.offset.val recs.length)
    ∧ (∀ (st : S3SourceInfo) (ch : ChannelState) (r : Rec) (rest : List ChanItem),
        st.buffer = none → ch.queue = SResult.ok r :: rest →
        (get_next_message st ch).2.1.offset.val = st.offset.val + 1)
    ∧ (∀ (st : S3SourceInfo) (ch : ChannelState),
        st.offset.val ≤ (get_next_message st ch).2.1.offset.val)
    ∧ (∀ (name bucket : String) (id : Nat) (active : Bool) (recs : List Rec)
        (b : Bool),
        readyOffsets
            (pollN recs.length (mkS3SourceInfo name bucket id active)
              ⟨recs.map SResult.ok, b⟩).1 =
          consec 0 recs.length)
    ∧ (∀ (k : Nat) (o : Int),
        List.Chain' (fun a b => b = a + 1) (consec o k)
          ∧ List.Chain' (fun a b => a < b) (consec o k))
    ∧ (∀ (name bucket : String) (id : Nat) (active : Bool),
        (mkS3SourceInfo name bucket id active).offset.val = 0)
    ∧ (∀ (b1 b2 : BucketOffset), mzOffsetOfBucket b1 = mzOffsetOfBucket b2 →
        b1 = b2)
    ∧ (∀ (bo : BucketOffset), (mzOffsetOfBucket bo).offset = bo.val) := by
  refine ⟨poll_ok_trace, ?_, ?_, ?_, ?_, fun _ _ _ _ => rfl, ?_, fun _ => rfl⟩
  · intro st ch r rest hb hq
    obtain ⟨queue, so⟩ := ch
    simp only at hq
    subst hq
    simp [get_next_message, hb, tryRecv, bucketOffsetAdd]
  · intro st ch
    obtain ⟨queue, so⟩ := ch
    cases hb : st.buffer with
    | some m => simp [get_next_message, hb]
    | none =>
      cases queue with
      | nil => cases so <;> simp [get_next_message, hb, tryRecv]
      | cons it rest =>
        cases it <;> simp [get_next_message, hb, tryRecv, bucketOffsetAdd]
  · intro name bucket id active recs b
    exact poll_ok_trace recs (mkS3SourceInfo name bucket id active) b rfl
  · intro k o
    refine ⟨consec_chain_succ k o, ?_⟩
    exact (consec_chain_succ k o).imp (fun a b h => by omega)
  · intro b1 b2 h
    have := congrArg MzOffset.offset h
    cases b1; cases b2; simpa [mzOffsetOfBucket] using this

/-- Witness for C2: offsets `1` then the bump-by-one equation at concrete
inputs. -/
theorem c2_witness :
    readyOffsets
        (pollN 1 (mkS3SourceInfo "s" "b" 0 true) ⟨[SResult.ok [7]], true⟩).1 =
      consec (mkS3SourceInfo "s" "b" 0 true).offset.val 1
    ∧ (get_next_message (mkS3SourceInfo "s" "b" 0 true)
          ⟨[SResult.ok [7]], true⟩).2.1.offset.val =
        (mkS3SourceInfo "s" "b" 0 true).offset.val + 1 :=
  ⟨c2_offset_monotone.1 [[7]] (mkS3SourceInfo "s" "b" 0 true) true rfl,
   c2_offset_monotone.2.1 (mkS3SourceInfo "s" "b" 0 true)
     ⟨[SResult.ok [7]], true⟩ [7] [] rfl rfl⟩

/-- C3: buffering while the slot is occupied is the fatal path (modelled as
`none`); buffering into an empty slot stores the message, and the next poll
returns exactly that message, clears the slot, and leaves the offset
untouched. -/
theorem c3_buffer_once :
    (∀ (st : S3SourceInfo) (m0 m : SourceMessage), st.buffer = some m0 →
        buffer_message st m = none)
    ∧ (∀ (st : S3SourceInfo) (m : SourceMessage), st.buffer = none →
        buffer_message st m = some { st with buffer := some m })
    ∧ (∀ (st : S3SourceInfo) (m : SourceMessage) (ch : ChannelState),
        get_next_message { st with buffer := some m } ch =
          (.ok (.Ready m), { st with buffer := none }, ch)) := by
  refine ⟨?_, ?_, ?_⟩
  · intro st m0 m h; simp [buffer_message, h]
  · intro st m h; simp [buffer_message, h]
  · intro st m ch; simp [get_next_message]

/-- Witness for C3: both buffering outcomes at a concrete state. -/
theorem c3_witness :
    buffer_message
        { mkS3SourceInfo "s" "b" 0 true with
            buffer := some ⟨.s3, ⟨1⟩, none, none, some [7]⟩ }
        ⟨.s3, ⟨2⟩, none, none, some [8]⟩ = none
    ∧ buffer_message (mkS3SourceInfo "s" "b" 0 true)
        ⟨.s3, ⟨1⟩, none, none, some [7]⟩ =
      some { mkS3SourceInfo "s" "b" 0 true with
               buffer := some ⟨.s3, ⟨1⟩, none, none, some [7]⟩ } :=
  ⟨c3_buffer_once.1 _ ⟨.s3, ⟨1⟩, none, none, some [7]⟩
      ⟨.s3, ⟨2⟩, none, none, some [8]⟩ rfl,
   c3_buffer_once.2.1 (mkS3SourceInfo "s" "b" 0 true)
      ⟨.s3, ⟨1⟩, none, none, some [7]⟩ rfl⟩

/-- C4: with the re-buffer slot empty, one non-blocking receive decides the
tick: a queued record yields `Ready` at the bumped offset, a queued failure
is propagated as the tick's error, an empty open channel yields `Pending`,
and a drained disconnected channel yields `Finished`. -/
theorem c4_tick_cases :
    ∀ (st : S3SourceInfo), st.buffer = none →
      (∀ (r : Rec) (rest : List ChanItem) (b : Bool),
          get_next_message st ⟨SResult.ok r :: rest, b⟩ =
            (.ok (.Ready ⟨.s3, ⟨st.offset.val + 1⟩, none, none, some r⟩),
             { st with offset := ⟨st.offset.val + 1⟩ }, ⟨rest, b⟩))
      ∧ (∀ (e : String) (rest : List ChanItem) (b : Bool),
          get_next_message st ⟨SResult.err e :: rest, b⟩ =
            (.err e, st, ⟨rest, b⟩))
      ∧ get_next_message st ⟨[], true⟩ = (.ok .Pending, st, ⟨[], true⟩)
      ∧ get_next_message st ⟨[], false⟩ = (.ok .Finished, st, ⟨[], false⟩) := by
  intro st h
  refine ⟨?_, ?_, ?_, ?_⟩ <;>
    simp [get_next_message, h, tryRecv, bucketOffsetAdd, mzOffsetOfBucket]

/-- Witness for C4: the four channel shapes at a concrete state. -/
theorem c4_witness :
    get_next_message (mkS3SourceInfo "s" "b" 0 true) ⟨[], true⟩ =
      (.ok .Pending, mkS3SourceInfo "s" "b" 0 true, ⟨[], true⟩)
    ∧ get_next_message (mkS3SourceInfo "s" "b" 0 true) ⟨[SResult.err "x"], true⟩ =
        (.err "x", mkS3SourceInfo "s" "b" 0 true, ⟨[], true⟩) :=
  ⟨(c4_tick_cases (mkS3SourceInfo "s" "b" 0 true) rfl).2.2.1,
   (c4_tick_cases (mkS3SourceInfo "s" "b" 0 true) rfl).2.1 "x" [] true⟩

/-- C5: a non-elected worker's source polls `Finished` from the very first
tick and always reports windows closable; an elected worker's source reports
a window closable exactly when the tracked last offset has reached the
queried offset. -/
theorem c5_non_scanner :
    (∀ (name bucket : String) (id : Nat) (n : Nat),
        pollN n (mkS3SourceInfo name bucket id false) nonScannerChannel =
          (List.replicate n (SResult.ok NextMessage.Finished),
           mkS3SourceInfo name bucket id false, nonScannerChannel))
    ∧ (∀ (name bucket : String) (id : Nat) (md : Option MzOffset)
        (off : MzOffset),
        can_close_timestamp (mkS3SourceInfo name bucket id false) md off =
          some true)
    ∧ (∀ (st : S3SourceInfo) (last off : MzOffset),
        st.is_activated_reader = true →
        (can_close_timestamp st (some last) off = some true ↔
          off.offset ≤ last.offset)) := by
  refine ⟨?_, ?_, ?_⟩
  · intro name bucket id n
    induction n with
    | zero => simp [pollN]
    | succ m ih =>
      have step :
          get_next_message (mkS3SourceInfo name bucket id false)
              nonScannerChannel =
            (.ok .Finished, mkS3SourceInfo name bucket id false,
             nonScannerChannel) := rfl
      simp [pollN, step, ih, List.replicate]
  · intro name bucket id md off
    simp [can_close_timestamp, mkS3SourceInfo]
  · intro st last off h
    simp [can_close_timestamp, h, ge_iff_le]

/-- Witness for C5: the elected-scanner window query at concrete offsets. -/
theorem c5_witness :
    can_close_timestamp (mkS3SourceInfo "s" "b" 0 true) (some ⟨5⟩) ⟨3⟩ =
        some true ↔ (3 : Int) ≤ 5 :=
  c5_non_scanner.2.2 (mkS3SourceInfo "s" "b" 0 true) ⟨5⟩ ⟨3⟩ rfl

/-! ## Lemmas about the scanner -/

/-- Splitting always yields at least one record. -/
theorem splitNl_ne_nil : ∀ (l : List Nat), splitNl l ≠ [] := by
  intro l
  induction l with
  | nil => simp [splitNl]
  | cons b rest ih =>
    by_cases hb : b = 10
    · subst hb; simp [splitNl]
    · simp only [splitNl, if_neg hb]
      cases h : splitNl rest with
      | nil => exact absurd h ih
      | cons r rs => simp

/-- `n` newline bytes split into `n + 1` records. -/
theorem splitNl_length : ∀ (l : List Nat),
    (splitNl l).length = l.count 10 + 1 := by
  intro l
  induction l with
  | nil => simp [splitNl]
  | cons b rest ih =>
    by_cases hb : b = 10
    · subst hb; simp [splitNl, ih, List.count_cons]
    · simp only [splitNl, if_neg hb]
      cases h : splitNl rest with
      | nil => exact absurd h (splitNl_ne_nil rest)
      | cons r rs =>
        rw [h] at ih
        simp only [List.length_cons] at ih ⊢
        simp [List.count_cons, hb]
        omega

/-- No record contains the newline byte. -/
theorem splitNl_no_newline : ∀ (l : List Nat), ∀ r ∈ splitNl l, ¬ (10 ∈ r) := by
  intro l
  induction l with
  | nil =>
    intro r hr
    simp [splitNl] at hr
    subst hr; simp
  | cons b rest ih =>
    intro r hr
    by_cases hb : b = 10
    · subst hb
      rw [show splitNl (10 :: rest) = [] :: splitNl rest from by
        simp [splitNl]] at hr
      rcases List.mem_cons.mp hr with rfl | hmem
      · simp
      · exact ih r hmem
    · cases h : splitNl rest with
      | nil => exact absurd h (splitNl_ne_nil rest)
      | cons r0 rs =>
        simp only [splitNl, if_neg hb, h, List.mem_cons] at hr
        rcases hr with rfl | hmem
        · intro hc
          rcases List.mem_cons.mp hc with h10 | h10
          · exact hb h10.symm
          · exact ih r0 (by rw [h]; exact List.mem_cons_self r0 rs) h10
        · exact ih r (by rw [h]; exact List.mem_cons_of_mem r0 hmem)

/-- A trailing newline produces a trailing empty record. -/
theorem splitNl_append_newline : ∀ (bs : List Nat),
    splitNl (bs ++ [10]) = splitNl bs ++ [[]] := by
  intro bs
  induction bs with
  | nil => simp [splitNl]
  | cons b rest ih =>
    by_cases hb : b = 10
    · subst hb; simp [splitNl, ih]
    · cases h : splitNl rest with
      | nil => exact absurd h (splitNl_ne_nil rest)
      | cons r0 rs =>
        simp only [List.cons_append, splitNl, if_neg hb, List.append_eq]
        rw [ih, h]
        simp

/-- `okRecords` distributes over append. -/
theorem okRecords_append : ∀ (a b : List ChanItem),
    okRecords (a ++ b) = okRecords a ++ okRecords b := by
  intro a b; simp [okRecords]

/-- Mapping records into the channel's success constructor and filtering
them back out is the identity. -/
theorem okRecords_ok_map : ∀ (l : List Rec),
    okRecords (l.map SResult.ok) = l := by
  intro l
  induction l with
  | nil => rfl
  | cons x xs ih =>
    simp only [okRecords, List.map_cons, List.filterMap_cons] at ih ⊢
    rw [ih]

/-- The success records of one object's messages. -/
theorem okRecords_download : ∀ (env : String → ObjResult) (k : String),
    okRecords ((download_object env k).msgs) = recordsOf (env k) := by
  intro env k
  cases h : env k with
  | fetchErr e => simp [download_object, okRecords, recordsOf, h]
  | noBody => simp [download_object, okRecords, recordsOf, h]
  | readErr e => simp [download_object, okRecords, recordsOf, h]
  | bodyOk bytes =>
    simp only [download_object, h, recordsOf]
    exact okRecords_ok_map (splitNl bytes)

/-- The success records of a whole key list's messages, in key order. -/
theorem okRecords_keys : ∀ (keys : List String) (env : String → ObjResult),
    okRecords
        ((keys.map fun k => (download_object env k).msgs).flatten) =
      keys.flatMap fun k => recordsOf (env k) := by
  intro keys env
  induction keys with
  | nil => simp [okRecords]
  | cons k ks ih =>
    simp only [List.map_cons, List.flatten_cons, List.flatMap_cons,
      okRecords_append, okRecords_download, ih]

/-- Exhausting the retry budget on consecutive listing failures: each failed
call reuses the same cursor, decrements the budget, sleeps once (except the
last), and the loop ends `exhausted` with nothing sent into the channel. -/
theorem scanLoop_all_err : ∀ (es : List ListResult) (b : Nat)
    (g : Option (String → Bool)) (env : String → ObjResult)
    (tok : Option Nat) (rs : List ListResult),
    0 < b → es.length = b → es.all isErrResult = true →
    scanLoop g env tok b (es ++ rs) =
      { calls := List.replicate b tok, msgs := [], activations := 0,
        sleeps := b - 1, outcome := .exhausted } := by
  intro es
  induction es with
  | nil =>
    intro b g env tok rs hb hlen _
    exfalso
    simp at hlen
    omega
  | cons e es ih =>
    intro b g env tok rs hb hlen hall
    cases e with
    | ok c t => simp [isErrResult] at hall
    | err m =>
      have hall' : es.all isErrResult = true := by
        rw [List.all_cons, Bool.and_eq_true] at hall
        exact hall.2
      cases b with
      | zero => exact absurd hb (by omega)
      | succ b' =>
        cases b' with
        | zero =>
          have hes : es = [] := by simpa using hlen
          subst hes
          simp [scanLoop, List.replicate]
        | succ b'' =>
          have hlen' : es.length = b'' + 1 := by simpa using hlen
          have ih' := ih (b'' + 1) g env tok rs (by omega) hlen' hall'
          simp [scanLoop, ih', List.replicate]

/-- One complete multi-page scan emits, page by page and key by key, each
object's messages, and ends `completed`. -/
theorem scanLoop_mkResponses : ∀ (pages : List (List (Option String)))
    (g : Option (String → Bool)) (env : String → ObjResult)
    (tok : Option Nat) (b : Nat), pages ≠ [] →
    (scanLoop g env tok b (mkResponses pages)).msgs =
      ((pages.flatMap fun p => keysOfContents g (some p)).map
        fun k => (download_object env k).msgs).flatten
    ∧ (scanLoop g env tok b (mkResponses pages)).outcome = .completed := by
  intro pages
  induction pages with
  | nil => intro g env tok b h; exact absurd rfl h
  | cons p ps ih =>
    intro g env tok b h
    cases ps with
    | nil =>
      constructor <;>
        simp [mkResponses, scanLoop, List.map_map, Function.comp_def]
    | cons p2 ps' =>
      have ih' := ih g env (some 0) 10 (by simp)
      constructor <;>
        simp [mkResponses, scanLoop, ih'.1, ih'.2, List.map_map,
          Function.comp_def, List.map_append]

/-! ## Scanner claim theorems -/

/-- C6: the retry budget starts at 10, resets to 10 on every successful
listing call, decrements on every failure; a failure with budget left retries
the same cursor after one backoff sleep, and ten consecutive failures end the
scan `exhausted` with nothing sent into the channel, after which the reader
(on the drained, closed channel) observes `Finished`. -/
theorem c6_retry_budget :
    (∀ (g : Option (String → Bool)) (env : String → ObjResult)
        (rs : List ListResult),
        read_bucket_task g env rs = scanLoop g env none 10 rs)
    ∧ (∀ (g : Option (String → Bool)) (env : String → ObjResult)
        (tok : Option Nat) (b : Nat) (e : String) (rs : List ListResult),
        b - 1 ≠ 0 →
        scanLoop g env tok b (.err e :: rs) =
          { calls := tok :: (scanLoop g env tok (b - 1) rs).calls,
            msgs := (scanLoop g env tok (b - 1) rs).msgs,
            activations := (scanLoop g env tok (b - 1) rs).activations,
            sleeps := (scanLoop g env tok (b - 1) rs).sleeps + 1,
            outcome := (scanLoop g env tok (b - 1) rs).outcome })
    ∧ (∀ (g : Option (String → Bool)) (env : String → ObjResult)
        (tok : Option Nat) (b : Nat) (c : Option (List (Option String)))
        (t : Nat) (rs : List ListResult),
        scanLoop g env tok b (.ok c (some t) :: rs) =
          { calls := tok :: (scanLoop g env (some t) 10 rs).calls,
            msgs :=
              (((keysOfContents g c).map (download_object env)).map
                  DownloadResult.msgs).flatten ++
                (scanLoop g env (some t) 10 rs).msgs,
            activations :=
              (((keysOfContents g c).map (download_object env)).map
                  DownloadResult.activations).sum +
                (scanLoop g env (some t) 10 rs).activations,
            sleeps := (scanLoop g env (some t) 10 rs).sleeps,
            outcome := (scanLoop g env (some t) 10 rs).outcome })
    ∧ (∀ (g : Option (String → Bool)) (env : String → ObjResult)
        (es rs : List ListResult),
        es.length = 10 → es.all isErrResult = true →
        read_bucket_task g env (es ++ rs) =
          { calls := List.replicate 10 none, msgs := [], activations := 0,
            sleeps := 9, outcome := .exhausted })
    ∧ (∀ (st : S3SourceInfo), st.buffer = none →
        (get_next_message st ⟨[], false⟩).1 = .ok .Finished) := by
  refine ⟨fun _ _ _ => rfl, ?_, fun _ _ _ _ _ _ _ => rfl, ?_, ?_⟩
  · intro g env tok b e rs hbud
    simp [scanLoop, if_neg hbud]
  · intro g env es rs hlen hall
    exact scanLoop_all_err es 10 g env none rs (by omega) hlen hall
  · intro st h
    simp [get_next_message, h, tryRecv]

/-- Witness for C6: the decrement equation and full exhaustion at a concrete
environment. -/
theorem c6_witness :
    scanLoop none (fun _ => ObjResult.noBody) none 10 [ListResult.err "x"] =
      { calls := none ::
          (scanLoop none (fun _ => ObjResult.noBody) none 9 []).calls,
        msgs := (scanLoop none (fun _ => ObjResult.noBody) none 9 []).msgs,
        activations :=
          (scanLoop none (fun _ => ObjResult.noBody) none 9 []).activations,
        sleeps :=
          (scanLoop none (fun _ => ObjResult.noBody) none 9 []).sleeps + 1,
        outcome :=
          (scanLoop none (fun _ => ObjResult.noBody) none 9 []).outcome }
    ∧ read_bucket_task none (fun _ => ObjResult.noBody)
        (List.replicate 10 (ListResult.err "x") ++ []) =
      { calls := List.replicate 10 none, msgs := [], activations := 0,
        sleeps := 9, outcome := .exhausted } :=
  ⟨c6_retry_budget.2.1 none (fun _ => ObjResult.noBody) none 10 "x" []
      (by decide),
   c6_retry_budget.2.2.2.1 none (fun _ => ObjResult.noBody)
      (List.replicate 10 (ListResult.err "x")) [] (by decide) (by decide)⟩

/-- C7: a fetch or body-read failure pushes exactly one failure message for
that object; with keys `[K1, K2, K3]` where only `K2`'s fetch fails, the
records of `K1` and `K3` are still delivered in order around the single
failure, and the scan completes normally. -/
theorem c7_per_object_failure :
    (∀ (env : String → ObjResult) (k : String) (e : String),
        env k = ObjResult.fetchErr e →
        download_object env k =
          { msgs := [SResult.err ("Unable to GET object: " ++ e)],
            activations := 0 })
    ∧ (∀ (env : String → ObjResult) (k : String) (e : String),
        env k = ObjResult.readErr e →
        download_object env k =
          { msgs := [SResult.err ("Unable to read object: " ++ e)],
            activations := 0 })
    ∧ (∀ (env : String → ObjResult) (k1 k2 k3 : String) (b1 b3 : List Nat)
        (e : String) (tok : Option Nat) (b : Nat),
        env k1 = .bodyOk b1 → env k2 = .fetchErr e → env k3 = .bodyOk b3 →
        (scanLoop none env tok b
              [.ok (some [some k1, some k2, some k3]) none]).msgs =
            (splitNl b1).map SResult.ok ++
              SResult.err ("Unable to GET object: " ++ e) ::
                (splitNl b3).map SResult.ok
          ∧ (scanLoop none env tok b
                [.ok (some [some k1, some k2, some k3]) none]).outcome =
              .completed) := by
  refine ⟨?_, ?_, ?_⟩
  · intro env k e h; simp [download_object, h]
  · intro env k e h; simp [download_object, h]
  · intro env k1 k2 k3 b1 b3 e tok b h1 h2 h3
    constructor <;>
      simp [scanLoop, keysOfContents, download_object, h1, h2, h3]

/-- Witness for C7: the three-key scan with a failing middle key. -/
theorem c7_witness :
    (scanLoop none
          (fun k => if k = "K1" then ObjResult.bodyOk [97]
            else if k = "K2" then ObjResult.fetchErr "nope"
            else ObjResult.bodyOk [98]) none 10
          [.ok (some [some "K1", some "K2", some "K3"]) none]).msgs =
      (splitNl [97]).map SResult.ok ++
        SResult.err ("Unable to GET object: " ++ "nope") ::
          (splitNl [98]).map SResult.ok :=
  (c7_per_object_failure.2.2
    (fun k => if k = "K1" then ObjResult.bodyOk [97]
      else if k = "K2" then ObjResult.fetchErr "nope"
      else ObjResult.bodyOk [98])
    "K1" "K2" "K3" [97] [98] "nope" none 10
    (by decide) (by decide) (by decide)).1

/-- C8: over a complete (possibly multi-page) scan, the channel receives, in
listing order restricted to glob-matching keys, each object's messages; the
success records are exactly the concatenation of each object's lines in
original order. -/
theorem c8_order_preservation :
    ∀ (g : Option (String → Bool)) (env : String → ObjResult)
      (pages : List (List (Option String))) (tok : Option Nat) (b : Nat),
      pages ≠ [] →
      ((scanLoop g env tok b (mkResponses pages)).msgs =
          ((pages.flatMap fun p => keysOfContents g (some p)).map
            fun k => (download_object env k).msgs).flatten)
      ∧ (okRecords (scanLoop g env tok b (mkResponses pages)).msgs =
          (pages.flatMap fun p => keysOfContents g (some p)).flatMap
            fun k => recordsOf (env k))
      ∧ (scanLoop g env tok b (mkResponses pages)).outcome = .completed := by
  intro g env pages tok b h
  obtain ⟨hm, ho⟩ := scanLoop_mkResponses pages g env tok b h
  exact ⟨hm, by rw [hm]; exact okRecords_keys _ env, ho⟩

/-- Witness for C8: objects `A` (lines `a1, a2`) and `B` (line `b1`) listed
in that order emit `a1, a2, b1`. -/
theorem c8_witness :
    okRecords
        (scanLoop none
            (fun k => if k = "A" then ObjResult.bodyOk [97, 49, 10, 97, 50]
              else ObjResult.bodyOk [98, 49]) none 10
            (mkResponses [[some "A", some "B"]])).msgs =
      ([[some "A", some "B"]].flatMap fun p =>
          keysOfContents none (some p)).flatMap
        fun k => recordsOf
          ((fun k => if k = "A" then ObjResult.bodyOk [97, 49, 10, 97, 50]
            else ObjResult.bodyOk [98, 49]) k) :=
  (c8_order_preservation none
    (fun k => if k = "A" then ObjResult.bodyOk [97, 49, 10, 97, 50]
      else ObjResult.bodyOk [98, 49])
    [[some "A", some "B"]] none 10 (by decide)).2.1

/-- C9 counterexample: for an empty (but successfully read) body, one empty
record is pushed yet the activator is signalled zero times, not once. -/
theorem c9_counterexample :
    1 ≤ (download_object (fun _ => ObjResult.bodyOk []) "k").msgs.length
    ∧ (download_object (fun _ => ObjResult.bodyOk []) "k").activations = 0
    ∧ ¬ (download_object (fun _ => ObjResult.bodyOk []) "k").activations = 1 := by
  decide

/-- C9 (amended): for every successfully read *non-empty* object body the
scanner signals the wake handle exactly once — not once per line and not zero
times; for an empty body it pushes its single empty record but does not
signal at all. -/
theorem c9_activation_amended :
    ∀ (env : String → ObjResult) (k : String) (bytes : List Nat),
      env k = ObjResult.bodyOk bytes →
      1 ≤ (download_object env k).msgs.length
      ∧ (download_object env k).activations = (if bytes.isEmpty then 0 else 1)
      ∧ (bytes ≠ [] → (download_object env k).activations = 1)
      ∧ (bytes = [] → (download_object env k).activations = 0) := by
  intro env k bytes h
  refine ⟨?_, ?_, ?_, ?_⟩
  · have hne := splitNl_ne_nil bytes
    simp only [download_object, h, List.length_map]
    have := List.length_pos.mpr hne
    omega
  · simp [download_object, h]
  · intro hb
    simp [download_object, h, List.isEmpty_iff, hb]
  · intro hb
    subst hb
    simp [download_object, h]

/-- Witness for C9 (amended): a one-byte body signals exactly once. -/
theorem c9_witness :
    (download_object (fun _ => ObjResult.bodyOk [97]) "k").activations = 1 :=
  (c9_activation_amended (fun _ => ObjResult.bodyOk [97]) "k" [97] rfl).2.2.1
    (by decide)

/-- C10: a successfully read body of `n` newline bytes yields exactly `n + 1`
records by splitting on the newline byte: the empty body yields one empty
record, a trailing newline yields a trailing empty record, and no record
contains a newline byte. -/
theorem c10_split_records :
    ∀ (env : String → ObjResult) (k : String) (bytes : List Nat),
      env k = ObjResult.bodyOk bytes →
      (download_object env k).msgs = (splitNl bytes).map SResult.ok
      ∧ (download_object env k).msgs.length = bytes.count 10 + 1
      ∧ (∀ r ∈ splitNl bytes, ¬ (10 ∈ r))
      ∧ (bytes = [] → (download_object env k).msgs = [SResult.ok []])
      ∧ (∀ (bs : List Nat), bytes = bs ++ [10] →
          (download_object env k).msgs =
            (splitNl bs).map SResult.ok ++ [SResult.ok []]) := by
  intro env k bytes h
  refine ⟨?_, ?_, splitNl_no_newline bytes, ?_, ?_⟩
  · simp [download_object, h]
  · simp [download_object, h, splitNl_length]
  · intro hb; subst hb; simp [download_object, h, splitNl]
  · intro bs hbs
    subst hbs
    simp [download_object, h, splitNl_append_newline]

/-- Witness for C10: a body `"a\n"` yields the record `"a"` then one empty
record. -/
theorem c10_witness :
    (download_object (fun _ => ObjResult.bodyOk [97, 10]) "k").msgs =
      (splitNl [97]).map SResult.ok ++ [SResult.ok []] :=
  ((c10_split_records (fun _ => ObjResult.bodyOk [97, 10]) "k" [97, 10]
    rfl).2.2.2.2) [97] rfl

end S3Spec
